import Mathlib

/-!
Shallow embedding of the dice-expression engine of `dice_utils.py`
(repository CallOfTheGoose): tokenizer, recursive-descent parser and
evaluator, result formatters, and the Call-of-Cthulhu percentile
sub-engine.  The only nondeterminism in the source is `random.randint`;
here every random draw is an explicit argument (a list of pre-drawn
values, or a tape of raw values reduced modulo the die size), so each
source function becomes a pure function of its inputs plus the draws.
-/

namespace DiceUtils

/-- Result of a Python call that may raise `DiceParseError`: either a
value or the raised error's message. -/
inductive PyResult (α : Type) where
  | ok (val : α)
  | error (msg : String)
deriving DecidableEq, Repr

instance : Monad PyResult where
  pure := PyResult.ok
  bind x f :=
    match x with
    | PyResult.ok v => f v
    | PyResult.error e => PyResult.error e

/-- The keep-modifier of a dice expression: `kh` (keep highest) or
`kl` (keep lowest).  The source stores it as the string "kh"/"kl". -/
inductive Modifier
  | kh
  | kl
deriving DecidableEq, Repr

/-- `DiceRoll` dataclass: one evaluated dice sub-expression. -/
structure DiceRoll where
  num_dice : Nat
  num_faces : Nat
  rolls : List Nat
  total : Nat
  kept_rolls : Option (List Nat) := none
  dropped_rolls : Option (List Nat) := none
  modifier : Option Modifier := none
deriving DecidableEq, Repr

/-- The comparator passed to Python's stable sort in `roll_dice`:
`sorted(rolls, reverse=(modifier == 'kh'))` sorts descending for `kh`
and ascending for `kl`, keeping equal elements in original order.
Lean's `List.mergeSort` is the same stable sort. -/
def sortComparator (m : Modifier) : Nat → Nat → Bool :=
  fun a b => if m = Modifier.kh then decide (b ≤ a) else decide (a ≤ b)

/-- `DiceParser.roll_dice`, lines 362-393, with the random draws
(line 368, `rolls = [random.randint(1, num_faces) ...]`) supplied as the
`rolls` argument; everything after that line is deterministic. -/
def rollDiceCore (num_dice num_faces : Nat) (rolls : List Nat)
    (modifier : Option Modifier) (keep_count : Option Nat) : DiceRoll :=
  match modifier, keep_count with
  | some m, some k =>
    let sorted_rolls := rolls.mergeSort (sortComparator m)
    let kept := sorted_rolls.take k
    let dropped := sorted_rolls.drop k
    { num_dice := num_dice, num_faces := num_faces, rolls := rolls,
      total := kept.sum, kept_rolls := some kept,
      dropped_rolls := some dropped, modifier := some m }
  | m, _ =>
    { num_dice := num_dice, num_faces := num_faces, rolls := rolls,
      total := rolls.sum, kept_rolls := none, dropped_rolls := none,
      modifier := m }

/-- Python truthiness of an optional list: `None` and `[]` are falsy. -/
def truthyList (l : Option (List Nat)) : Bool :=
  match l with
  | none => false
  | some xs => !xs.isEmpty

/-- `', '.join(map(str, l))`. -/
def joinComma (l : List Nat) : String :=
  ", ".intercalate (l.map toString)

/-- `DiceRoll.__str__`, lines 52-61.  Note the Python condition
`if self.kept_rolls and self.dropped_rolls` is truthiness: it falls
through when either list is `None` or empty. -/
def DiceRoll.display (d : DiceRoll) : String :=
  if truthyList d.kept_rolls && truthyList d.dropped_rolls then
    "[" ++ joinComma (d.kept_rolls.getD []) ++ "](~~" ++
      joinComma (d.dropped_rolls.getD []) ++ "~~)"
  else if d.rolls.length = 1 then
    "[" ++ toString (d.rolls.headD 0) ++ "]"
  else
    "[" ++ joinComma d.rolls ++ "]"

/-- `CoCRollResult` dataclass. -/
structure CoCRollResult where
  skill_value : Int
  result : Nat
  tens_digit : Nat
  ones_digit : Nat
  bonus_penalty_rolls : List Nat
  selected_tens : Nat
  is_bonus : Bool
  num_dice : Int
  is_success : Bool
  is_critical : Bool
  is_fumble : Bool
deriving DecidableEq, Repr

/-- Python `min` over a list (the source only calls it on non-empty
lists; `0` stands in for the empty-list exception). -/
def listMin : List Nat → Nat
  | [] => 0
  | [x] => x
  | x :: y :: xs => Nat.min x (listMin (y :: xs))

/-- Python `max` over a list (the source only calls it on non-empty
lists; `0` stands in for the empty-list exception). -/
def listMax : List Nat → Nat
  | [] => 0
  | [x] => x
  | x :: y :: xs => Nat.max x (listMax (y :: xs))

/-- Lines 600-607 of `roll_coc_dice`: compose the final 1-100 result
from the selected tens digit and the ones digit, with the "00+00 = 100"
special case first and a `result == 0 → result = ones` fallback. -/
def cocComposeImpl (selected_tens ones : Nat) : Nat :=
  if selected_tens = 0 ∧ ones = 0 then 100
  else
    let r := selected_tens * 10 + ones
    if r = 0 then ones else r

/-- Modelled from the spec (for the refinement claim only): the simpler
composition "100 if selected_tens == 0 and ones == 0, else
selected_tens*10 + ones". -/
def cocComposeSpec (selected_tens ones : Nat) : Nat :=
  if selected_tens = 0 ∧ ones = 0 then 100
  else selected_tens * 10 + ones

/-- `roll_coc_dice`, lines 555-630, with the random draws supplied as
arguments: `ones` is the `random.randint(0, 9)` of line 579, and
`tens_rolls` the d10 draws of line 584 (a singleton when
`num_bonus_penalty == 0`) or line 590 (`1 + num_bonus_penalty` draws). -/
def roll_coc_dice (skill_value : Int) (num_bonus_penalty : Int)
    (is_bonus : Bool) (ones : Nat) (tens_rolls : List Nat) :
    PyResult CoCRollResult :=
  if skill_value < 1 ∨ skill_value > 100 then
    PyResult.error "技能值必須在 1-100 之間"
  else if num_bonus_penalty < 0 ∨ num_bonus_penalty > 3 then
    PyResult.error "獎勵/懲罰骰數量必須在 0-3 之間"
  else
    let pair :=
      if num_bonus_penalty = 0 then
        ([tens_rolls.headD 0], tens_rolls.headD 0)
      else if is_bonus then (tens_rolls, listMin tens_rolls)
      else (tens_rolls, listMax tens_rolls)
    let bonus_penalty_rolls := pair.1
    let selected_tens := pair.2
    let result := cocComposeImpl selected_tens ones
    PyResult.ok
      { skill_value := skill_value, result := result,
        tens_digit := selected_tens, ones_digit := ones,
        bonus_penalty_rolls := bonus_penalty_rolls,
        selected_tens := selected_tens, is_bonus := is_bonus,
        num_dice := num_bonus_penalty,
        is_success := decide ((result : Int) ≤ skill_value),
        is_critical := decide (result = 1),
        is_fumble := decide (96 ≤ result) }

/-- `TokenType` enum. -/
inductive TokenType where
  | NUMBER
  | DICE
  | PLUS
  | MINUS
  | MULTIPLY
  | DIVIDE
  | LPAREN
  | RPAREN
  | EOF
deriving DecidableEq, Repr

/-- A `Token` with its payload: the source stores a `(type, value)` pair;
here each payload-carrying type is its own constructor. -/
inductive Token where
  | number (n : Nat)
  | dice (num_dice num_faces : Nat) (modifier : Option Modifier)
      (keep_count : Option Nat)
  | plus
  | minus
  | multiply
  | divide
  | lparen
  | rparen
  | eof
deriving DecidableEq, Repr

/-- Python `str.isspace` for the characters the engine meets. -/
def isSpaceChar (c : Char) : Bool := c.isWhitespace

/-- Value of a string of decimal digits, `int(num_str)`. -/
def digitsVal (ds : List Char) : Nat :=
  ds.foldl (fun acc c => acc * 10 + (c.toNat - 48)) 0

/-- `Tokenizer.read_number`: consume a maximal digit run and return its
value with the rest of the input. -/
def readNumber (cs : List Char) : Nat × List Char :=
  (digitsVal (cs.takeWhile Char.isDigit), cs.dropWhile Char.isDigit)

/-- Lines 166-181 of `Tokenizer.read_dice`: the scan-time range
validation of a dice expression. -/
def validateDice (num_dice num_faces : Nat) (modifier : Option Modifier)
    (keep_count : Option Nat) : PyResult Unit :=
  if num_dice < 1 then PyResult.error "骰子數量必須大於 0"
  else if num_dice > 100 then PyResult.error "骰子數量不能超過 100"
  else if num_faces < 2 then PyResult.error "骰子面數必須至少為 2"
  else if num_faces > 1000 then PyResult.error "骰子面數不能超過 1000"
  else
    match modifier, keep_count with
    | some _, some k =>
      if k < 1 then PyResult.error "保留數量必須大於 0"
      else if k > num_dice then
        PyResult.error ("保留數量 (" ++ toString k ++ ") 不能大於骰子數量 ("
          ++ toString num_dice ++ ")")
      else PyResult.ok ()
    | _, _ => PyResult.ok ()

/-- Lines 147-182 of `Tokenizer.read_dice`: after count and faces are
read, the optional `kh`/`kl` suffix and the validation. -/
def readDiceModifier (num_dice num_faces : Nat) (cs : List Char) :
    PyResult ((Nat × Nat × Option Modifier × Option Nat) × List Char) :=
  match cs with
  | c :: cs1 =>
    if c.toLower = 'k' then
      match cs1 with
      | h :: cs2 =>
        if h.toLower = 'h' ∨ h.toLower = 'l' then
          let m := if h.toLower = 'h' then Modifier.kh else Modifier.kl
          let kc :=
            match cs2 with
            | c3 :: _ => if c3.isDigit then readNumber cs2 else (1, cs2)
            | [] => (1, cs2)
          match validateDice num_dice num_faces (some m) (some kc.1) with
          | PyResult.ok _ =>
            PyResult.ok ((num_dice, num_faces, some m, some kc.1), kc.2)
          | PyResult.error e => PyResult.error e
        else
          PyResult.error ("'k' 後面必須跟 'h' 或 'l'，但得到 '"
            ++ String.mk [h] ++ "'")
      | [] => PyResult.error "'k' 後面必須跟 'h' 或 'l'，但得到 'None'"
    else
      match validateDice num_dice num_faces none none with
      | PyResult.ok _ => PyResult.ok ((num_dice, num_faces, none, none), cs)
      | PyResult.error e => PyResult.error e
  | [] =>
    match validateDice num_dice num_faces none none with
    | PyResult.ok _ => PyResult.ok ((num_dice, num_faces, none, none), [])
    | PyResult.error e => PyResult.error e

/-- `Tokenizer.read_dice`, lines 127-182: read `NdM[kh|kl][K]` starting
at the count's digits, returning the 4-tuple and the rest of the input. -/
def readDice (cs : List Char) :
    PyResult ((Nat × Nat × Option Modifier × Option Nat) × List Char) :=
  let numAndRest := readNumber cs
  let num_dice := numAndRest.1
  match numAndRest.2 with
  | c :: cs2 =>
    if c.toLower = 'd' then
      match cs2 with
      | c2 :: _ =>
        if c2.isDigit then
          let facesAndRest := readNumber cs2
          readDiceModifier num_dice facesAndRest.1 facesAndRest.2
        else PyResult.error "骰子面數必須是數字"
      | [] => PyResult.error "骰子面數必須是數字"
    else PyResult.error ("期望 'd'，但得到 '" ++ String.mk [c] ++ "'")
  | [] => PyResult.error "期望 'd'，但得到 'None'"

/-- `Tokenizer.tokenize`, lines 184-248, as a fuel-indexed loop over the
remaining characters (the source's cursor loop; each iteration consumes
at least one character, so `length + 1` fuel never runs out).  Implicit
multiplication is inserted after a NUMBER, DICE or RPAREN token when the
next non-space character is a left parenthesis. -/
def tokenizeLoop : Nat → List Char → PyResult (List Token)
  | 0, _ => PyResult.error "內部錯誤：詞法分析未終止"
  | fuel + 1, cs0 =>
    let cs := cs0.dropWhile isSpaceChar
    match cs with
    | [] => PyResult.ok [Token.eof]
    | c :: rest =>
      if c.isDigit then
        let numAndRest := readNumber cs
        let isDiceNext :=
          match numAndRest.2 with
          | d :: _ => d.toLower == 'd'
          | [] => false
        if isDiceNext then
          match readDice cs with
          | PyResult.error e => PyResult.error e
          | PyResult.ok (data, rest2) =>
            let rest3 := rest2.dropWhile isSpaceChar
            let implicitMul : List Token :=
              match rest3 with
              | '(' :: _ => [Token.multiply]
              | _ => []
            match tokenizeLoop fuel rest3 with
            | PyResult.ok ts =>
              PyResult.ok (Token.dice data.1 data.2.1 data.2.2.1 data.2.2.2
                :: implicitMul ++ ts)
            | PyResult.error e => PyResult.error e
        else
          let rest3 := numAndRest.2.dropWhile isSpaceChar
          let implicitMul : List Token :=
            match rest3 with
            | '(' :: _ => [Token.multiply]
            | _ => []
          match tokenizeLoop fuel rest3 with
          | PyResult.ok ts =>
            PyResult.ok (Token.number numAndRest.1 :: implicitMul ++ ts)
          | PyResult.error e => PyResult.error e
      else if c = '+' then
        match tokenizeLoop fuel rest with
        | PyResult.ok ts => PyResult.ok (Token.plus :: ts)
        | PyResult.error e => PyResult.error e
      else if c = '-' then
        match tokenizeLoop fuel rest with
        | PyResult.ok ts => PyResult.ok (Token.minus :: ts)
        | PyResult.error e => PyResult.error e
      else if c = '*' then
        match tokenizeLoop fuel rest with
        | PyResult.ok ts => PyResult.ok (Token.multiply :: ts)
        | PyResult.error e => PyResult.error e
      else if c = '/' then
        match tokenizeLoop fuel rest with
        | PyResult.ok ts => PyResult.ok (Token.divide :: ts)
        | PyResult.error e => PyResult.error e
      else if c = '(' then
        match tokenizeLoop fuel rest with
        | PyResult.ok ts => PyResult.ok (Token.lparen :: ts)
        | PyResult.error e => PyResult.error e
      else if c = ')' then
        let rest3 := rest.dropWhile isSpaceChar
        let implicitMul : List Token :=
          match rest3 with
          | '(' :: _ => [Token.multiply]
          | _ => []
        match tokenizeLoop fuel rest3 with
        | PyResult.ok ts => PyResult.ok (Token.rparen :: implicitMul ++ ts)
        | PyResult.error e => PyResult.error e
      else PyResult.error ("無效字符：'" ++ String.mk [c] ++ "'")

/-- Python `str.strip`. -/
def stripChars (cs : List Char) : List Char :=
  ((cs.dropWhile isSpaceChar).reverse.dropWhile isSpaceChar).reverse

/-- `Tokenizer(text).tokenize()`: the constructor strips the text
(line 95), then the loop scans it. -/
def tokenize (s : String) : PyResult (List Token) :=
  let cs := stripChars s.toList
  tokenizeLoop (cs.length + 1) cs

/-- `Token.type.value` as displayed in the source's error messages. -/
def tokenTypeName : Token → String
  | Token.number _ => "NUMBER"
  | Token.dice _ _ _ _ => "DICE"
  | Token.plus => "PLUS"
  | Token.minus => "MINUS"
  | Token.multiply => "MULTIPLY"
  | Token.divide => "DIVIDE"
  | Token.lparen => "LPAREN"
  | Token.rparen => "RPAREN"
  | Token.eof => "EOF"

/-- Evaluator state: remaining tokens, the roll log
(`self.dice_rolls`), and the tape of raw random draws. -/
structure EvalState where
  toks : List Token
  log : List DiceRoll
  tape : List Nat
deriving DecidableEq, Repr

/-- `random.randint(1, num_faces)` performed `num_dice` times, modelled
by reducing the next raw tape values into `[1, num_faces]`; the rest of
`roll_dice` is `rollDiceCore`. -/
def rollDiceTape (num_dice num_faces : Nat) (modifier : Option Modifier)
    (keep_count : Option Nat) (tape : List Nat) : DiceRoll × List Nat :=
  let rolls := (List.range num_dice).map
    (fun i => tape.getD i 0 % num_faces + 1)
  (rollDiceCore num_dice num_faces rolls modifier keep_count,
    tape.drop num_dice)

/-- Lines 316-321 of `DiceParser.term`: apply one `*` or `/` operator to
the running result.  Python `//=` is floor division (`Int.fdiv`); a zero
right operand raises first. -/
def applyTermOp (op : TokenType) (acc right : Int) : PyResult Int :=
  if op = TokenType.MULTIPLY then PyResult.ok (acc * right)
  else if right = 0 then PyResult.error "除以零錯誤"
  else PyResult.ok (Int.fdiv acc right)

mutual

/-- `DiceParser.expression`, lines 285-302: `term ((PLUS|MINUS) term)*`.
Fuel-indexed; the fuel given by `parseTokens` never runs out. -/
def expressionFn : Nat → EvalState → PyResult (Int × EvalState)
  | 0, _ => PyResult.error "內部錯誤：求值未終止"
  | fuel + 1, s =>
    match termFn fuel s with
    | PyResult.ok (v, s1) => exprLoop fuel v s1
    | PyResult.error e => PyResult.error e

/-- The `while` loop of `DiceParser.expression`. -/
def exprLoop : Nat → Int → EvalState → PyResult (Int × EvalState)
  | 0, _, _ => PyResult.error "內部錯誤：求值未終止"
  | fuel + 1, acc, s =>
    match s.toks with
    | Token.plus :: rest =>
      match termFn fuel { s with toks := rest } with
      | PyResult.ok (r, s2) => exprLoop fuel (acc + r) s2
      | PyResult.error e => PyResult.error e
    | Token.minus :: rest =>
      match termFn fuel { s with toks := rest } with
      | PyResult.ok (r, s2) => exprLoop fuel (acc - r) s2
      | PyResult.error e => PyResult.error e
    | _ => PyResult.ok (acc, s)

/-- `DiceParser.term`, lines 304-323: `factor ((MULTIPLY|DIVIDE) factor)*`. -/
def termFn : Nat → EvalState → PyResult (Int × EvalState)
  | 0, _ => PyResult.error "內部錯誤：求值未終止"
  | fuel + 1, s =>
    match factorFn fuel s with
    | PyResult.ok (v, s1) => termLoop fuel v s1
    | PyResult.error e => PyResult.error e

/-- The `while` loop of `DiceParser.term`, applying `applyTermOp`. -/
def termLoop : Nat → Int → EvalState → PyResult (Int × EvalState)
  | 0, _, _ => PyResult.error "內部錯誤：求值未終止"
  | fuel + 1, acc, s =>
    match s.toks with
    | Token.multiply :: rest =>
      match factorFn fuel { s with toks := rest } with
      | PyResult.ok (r, s2) =>
        match applyTermOp TokenType.MULTIPLY acc r with
        | PyResult.ok v => termLoop fuel v s2
        | PyResult.error e => PyResult.error e
      | PyResult.error e => PyResult.error e
    | Token.divide :: rest =>
      match factorFn fuel { s with toks := rest } with
      | PyResult.ok (r, s2) =>
        match applyTermOp TokenType.DIVIDE acc r with
        | PyResult.ok v => termLoop fuel v s2
        | PyResult.error e => PyResult.error e
      | PyResult.error e => PyResult.error e
    | _ => PyResult.ok (acc, s)

/-- `DiceParser.factor`, lines 325-360: number, dice or parenthesized
expression.  A DICE token rolls immediately and appends its record to
the log. -/
def factorFn : Nat → EvalState → PyResult (Int × EvalState)
  | 0, _ => PyResult.error "內部錯誤：求值未終止"
  | fuel + 1, s =>
    match s.toks with
    | Token.number n :: rest => PyResult.ok ((n : Int), { s with toks := rest })
    | Token.dice nd nf m k :: rest =>
      let rolled := rollDiceTape nd nf m k s.tape
      PyResult.ok ((rolled.1.total : Int),
        { toks := rest, log := s.log ++ [rolled.1], tape := rolled.2 })
    | Token.lparen :: rest =>
      match expressionFn fuel { s with toks := rest } with
      | PyResult.ok (v, s2) =>
        match s2.toks with
        | Token.rparen :: rest2 => PyResult.ok (v, { s2 with toks := rest2 })
        | _ => PyResult.error "括號不匹配：缺少右括號 ')'"
      | PyResult.error e => PyResult.error e
    | t :: _ =>
      PyResult.error ("無效的語法：期望數字、骰子或左括號，但得到 "
        ++ tokenTypeName t)
    | [] => PyResult.error "無效的語法：期望數字、骰子或左括號，但得到 EOF"

end

/-- `DiceParser(tokens).parse()`, lines 273-283: evaluate the expression
and require the next token to be EOF. -/
def parseTokens (toks : List Token) (tape : List Nat) :
    PyResult (Int × List DiceRoll) :=
  match expressionFn (10 * toks.length + 10)
      { toks := toks, log := [], tape := tape } with
  | PyResult.ok (v, s) =>
    match s.toks with
    | Token.eof :: _ => PyResult.ok (v, s.log)
    | [] => PyResult.ok (v, s.log)
    | _ => PyResult.error "表達式未完全解析"
  | PyResult.error e => PyResult.error e

/-- `parse_and_roll`, lines 514-550: the high-level API.  The broad
`except Exception` re-wrapping never fires here because every failure in
the embedding is already a `DiceParseError` message. -/
def parse_and_roll (formula : String) (tape : List Nat) :
    PyResult (Int × List DiceRoll) :=
  if (stripChars formula.toList).isEmpty then PyResult.error "公式不能為空"
  else if formula.length > 500 then PyResult.error "公式長度不能超過 500 字符"
  else
    match tokenize formula with
    | PyResult.error e => PyResult.error e
    | PyResult.ok toks => parseTokens toks tape

/-- `re.sub(r'\d+d\d+', '', formula, count=1)` of line 466: remove the
leftmost match of digits, a lowercase `d`, digits (the pattern is
case-sensitive; `re.sub` scans left to right, greedy digit runs). -/
def removeFirstDice : List Char → List Char
  | [] => []
  | c :: rest =>
    if c.isDigit then
      match (c :: rest).dropWhile Char.isDigit with
      | 'd' :: r2 =>
        if (r2.takeWhile Char.isDigit).isEmpty then c :: removeFirstDice rest
        else r2.dropWhile Char.isDigit
      | _ => c :: removeFirstDice rest
    else c :: removeFirstDice rest

/-- Lines 471-472: `remaining.replace(op, ' op ')` for each of
`+ - * /`; one pass is equivalent since no replacement inserts another
operator character. -/
def padOps : List Char → List Char
  | [] => []
  | c :: rest =>
    if c = '+' ∨ c = '-' ∨ c = '*' ∨ c = '/' then
      ' ' :: c :: ' ' :: padOps rest
    else c :: padOps rest

/-- `re.match(r'^(\d+)\(', formula)` of line 486: a leading digit run
immediately followed by a left parenthesis. -/
def leadingCoefDigits (cs : List Char) : Option String :=
  match cs.takeWhile Char.isDigit, cs.dropWhile Char.isDigit with
  | [], _ => none
  | ds, '(' :: _ => some (String.mk ds)
  | _, _ => none

/-- The body of the `for` loop of `format_multiple_results`, lines
457-507: the one output line for attempt `i` with value `result` and
roll records `dice_rolls`.  (For an empty formula Python's
`formula[0]` would raise; that point is unreachable through the API,
which rejects empty formulas, and the embedding returns the fallback.) -/
def formatEntryLine (formula : String) (i : Nat) (result : Int)
    (dice_rolls : List DiceRoll) : String :=
  match dice_rolls with
  | [] => "第" ++ toString i ++ "次：" ++ toString result
  | d :: _ =>
    if dice_rolls.length = 1 ∧ formula.toList.count 'd' = 1 then
      let dice_display := d.display
      let remaining := removeFirstDice formula.toList
      if remaining.isEmpty then
        "第" ++ toString i ++ "次：" ++ dice_display ++ " = "
          ++ toString result
      else
        let remaining2 := String.mk (stripChars (padOps remaining))
        "第" ++ toString i ++ "次：" ++ dice_display ++ " " ++ remaining2
          ++ " = " ++ toString result
    else if dice_rolls.length > 1 then
      let dice_strs := dice_rolls.map DiceRoll.display
      let headIsDigit :=
        match formula.toList with
        | c :: _ => c.isDigit
        | [] => false
      if headIsDigit && formula.toList.contains '(' then
        match leadingCoefDigits formula.toList with
        | some coef =>
          "第" ++ toString i ++ "次：" ++ coef ++ " × ("
            ++ " + ".intercalate dice_strs ++ ") = " ++ toString result
        | none =>
          "第" ++ toString i ++ "次：" ++ ", ".intercalate dice_strs
            ++ " → " ++ toString result
      else
        "第" ++ toString i ++ "次：" ++ ", ".intercalate dice_strs
          ++ " → " ++ toString result
    else
      "第" ++ toString i ++ "次："
        ++ ", ".intercalate (dice_rolls.map DiceRoll.display)
        ++ " → " ++ toString result

/-- `str.rstrip('\n')`. -/
def rstripNewline (s : String) : String :=
  String.mk ((s.toList.reverse.dropWhile (· == '\n')).reverse)

/-- `format_multiple_results`, lines 443-509: header plus one line per
attempt. -/
def format_multiple_results (formula : String)
    (results : List (Int × List DiceRoll)) (times : Nat) : String :=
  let header := "🎲 擲骰結果：" ++ formula ++ " (重複 " ++ toString times
    ++ " 次)\n"
  let lines := results.enum.map
    (fun p => formatEntryLine formula (p.1 + 1) p.2.1 p.2.2 ++ "\n")
  rstripNewline (header ++ String.join lines)

/-- The sum of the `k` largest values of a list: sort descending with
Mathlib's insertion sort (independent of the implementation's merge
sort) and sum the first `k`. -/
def sumKLargest (k : Nat) (l : List Nat) : Nat :=
  ((l.insertionSort (· ≥ ·)).take k).sum

/-- The sum of the `k` smallest values of a list: sort ascending with
Mathlib's insertion sort and sum the first `k`. -/
def sumKSmallest (k : Nat) (l : List Nat) : Nat :=
  ((l.insertionSort (· ≤ ·)).take k).sum

end DiceUtils


namespace DiceUtils

/-- Floor division is symmetric under negating both operands. -/
theorem fdiv_neg_neg (a b : Int) : Int.fdiv (-a) (-b) = Int.fdiv a b := by
  cases a with
  | ofNat m =>
    cases m with
    | zero => cases b with
      | ofNat n => cases n with
        | zero => simp [show Int.ofNat 0 = 0 from rfl, Int.fdiv_zero]
        | succ n => rfl
      | negSucc n => rfl
    | succ m => cases b with
      | ofNat n => cases n with
        | zero => simp [show Int.ofNat 0 = 0 from rfl, Int.fdiv_zero]
        | succ n => rfl
      | negSucc n => rfl
  | negSucc m => cases b with
    | ofNat n => cases n with
      | zero => simp [show Int.ofNat 0 = 0 from rfl, Int.fdiv_zero]
      | succ n => rfl
    | negSucc n => rfl

/-- `Int.fdiv` is the floor of the exact quotient: characterization for
a positive divisor. -/
theorem fdiv_bounds_pos (a b : Int) (hb : 0 < b) :
    b * Int.fdiv a b ≤ a ∧ a < b * (Int.fdiv a b + 1) := by
  have h1 := Int.fdiv_add_fmod a b
  have h2 : Int.fmod a b = a % b := Int.fmod_eq_emod a (le_of_lt hb)
  have h3 : 0 ≤ a % b := Int.emod_nonneg a (by omega)
  have h4 : a % b < b := Int.emod_lt_of_pos a hb
  constructor
  · nlinarith [h1]
  · nlinarith [h1]

/-- `Int.fdiv` is the floor of the exact quotient: characterization for
a negative divisor. -/
theorem fdiv_bounds_neg (a b : Int) (hb : b < 0) :
    a ≤ b * Int.fdiv a b ∧ b * (Int.fdiv a b + 1) < a := by
  have h := fdiv_bounds_pos (-a) (-b) (by omega)
  rw [fdiv_neg_neg] at h
  constructor <;> nlinarith [h.1, h.2]

/-- C6: division in the evaluator is floor division (truncating toward
negative infinity): the `/` operator step computes `Int.fdiv`, whose
value is the floor of the exact quotient (characterized for positive and
negative divisors); `parse_and_roll "10/3"` returns 3; a zero right
operand raises DiceParseError 除以零錯誤 at the evaluation of that
operator application and a nonzero right operand never raises (the
concrete runs `10/0` and `7/(0-2)` show the error and the
toward-negative-infinity rounding through the full pipeline). -/
theorem division_floor_semantics :
    (∀ a b : Int, b ≠ 0 →
      applyTermOp TokenType.DIVIDE a b = PyResult.ok (Int.fdiv a b)) ∧
    (∀ a : Int, applyTermOp TokenType.DIVIDE a 0 =
      PyResult.error "除以零錯誤") ∧
    (∀ a b : Int, 0 < b →
      b * Int.fdiv a b ≤ a ∧ a < b * (Int.fdiv a b + 1)) ∧
    (∀ a b : Int, b < 0 →
      a ≤ b * Int.fdiv a b ∧ b * (Int.fdiv a b + 1) < a) ∧
    parse_and_roll "10/3" [] = PyResult.ok (3, []) ∧
    parse_and_roll "10/0" [] = PyResult.error "除以零錯誤" ∧
    parse_and_roll "7/(0-2)" [] = PyResult.ok (-4, []) := by
  refine ⟨?_, ?_, fdiv_bounds_pos, fdiv_bounds_neg, by decide, by decide,
    by decide⟩
  · intro a b hb
    simp [applyTermOp, hb]
  · intro a
    simp [applyTermOp]

/-- C10: the implemented result composition of `roll_coc_dice` (100
special case first, then `selected_tens*10 + ones` with a
`result == 0 → result = ones` fallback) agrees with the simpler
spec composition on all digit pairs in `[0,9]`, and the fallback branch
is unreachable (`t*10 + o = 0` forces both digits to 0, already handled
by the 100 case). -/
theorem coc_compose_impl_eq_spec (t o : Nat) (ht : t ≤ 9) (ho : o ≤ 9) :
    cocComposeImpl t o = cocComposeSpec t o ∧
    (¬(t = 0 ∧ o = 0) → t * 10 + o ≠ 0) := by
  constructor
  · unfold cocComposeImpl cocComposeSpec
    by_cases h : t = 0 ∧ o = 0
    · simp [h]
    · simp only [if_neg h]
      split
      · omega
      · rfl
  · omega

/-- Witness for C10 at the concrete digits 3 and 2. -/
theorem coc_compose_impl_eq_spec_witness :
    cocComposeImpl 3 2 = cocComposeSpec 3 2 ∧
    (¬(3 = 0 ∧ 2 = 0) → 3 * 10 + 2 ≠ 0) :=
  coc_compose_impl_eq_spec 3 2 (by decide) (by decide)

end DiceUtils
namespace DiceUtils

/-- The minimum computed by `listMin` is an element of a non-empty list. -/
theorem listMin_mem : ∀ (l : List Nat), l ≠ [] → listMin l ∈ l
  | [], h => absurd rfl h
  | [x], _ => by simp [listMin]
  | x :: y :: xs, _ => by
    have ih := listMin_mem (y :: xs) (by simp)
    by_cases hxy : x ≤ listMin (y :: xs)
    · simp [listMin, Nat.min_def, hxy]
    · simp only [listMin, Nat.min_def, if_neg hxy]
      exact List.mem_cons_of_mem x ih

/-- `listMin` is a lower bound of the list. -/
theorem listMin_le (l : List Nat) : ∀ x ∈ l, listMin l ≤ x := by
  induction l with
  | nil => intro x hx; cases hx
  | cons a t ih =>
    intro x hx
    cases t with
    | nil =>
      simp only [List.mem_singleton, List.mem_cons] at hx
      rcases hx with rfl | hx2
      · simp [listMin]
      · cases hx2
    | cons b u =>
      rcases List.mem_cons.mp hx with rfl | hx2
      · show Nat.min x (listMin (b :: u)) ≤ x
        exact Nat.min_le_left _ _
      · exact le_trans (Nat.min_le_right a (listMin (b :: u))) (ih x hx2)

/-- The maximum computed by `listMax` is an element of a non-empty list. -/
theorem listMax_mem : ∀ (l : List Nat), l ≠ [] → listMax l ∈ l
  | [], h => absurd rfl h
  | [x], _ => by simp [listMax]
  | x :: y :: xs, _ => by
    have ih := listMax_mem (y :: xs) (by simp)
    by_cases hxy : x ≤ listMax (y :: xs)
    · simp only [listMax, Nat.max_def, if_pos hxy]
      exact List.mem_cons_of_mem x ih
    · simp [listMax, Nat.max_def, hxy]

/-- `listMax` is an upper bound of the list. -/
theorem le_listMax (l : List Nat) : ∀ x ∈ l, x ≤ listMax l := by
  induction l with
  | nil => intro x hx; cases hx
  | cons a t ih =>
    intro x hx
    cases t with
    | nil =>
      simp only [List.mem_singleton, List.mem_cons] at hx
      rcases hx with rfl | hx2
      · simp [listMax]
      · cases hx2
    | cons b u =>
      rcases List.mem_cons.mp hx with rfl | hx2
      · show x ≤ Nat.max x (listMax (b :: u))
        exact Nat.le_max_left _ _
      · exact le_trans (ih x hx2) (Nat.le_max_right a (listMax (b :: u)))

/-- A bound on every element bounds `listMin` (also for `[]`, where it
is 0). -/
theorem listMin_le_bound (l : List Nat) (c : Nat) (h : ∀ x ∈ l, x ≤ c) :
    listMin l ≤ c := by
  cases l with
  | nil => exact Nat.zero_le c
  | cons a t =>
    exact le_trans (listMin_le (a :: t) a (by simp)) (h a (by simp))

/-- A bound on every element bounds `listMax` (also for `[]`, where it
is 0). -/
theorem listMax_le_bound (l : List Nat) (c : Nat) (h : ∀ x ∈ l, x ≤ c) :
    listMax l ≤ c := by
  cases l with
  | nil => exact Nat.zero_le c
  | cons a t => exact h _ (listMax_mem (a :: t) (by simp))

/-- A bound on every element bounds `headD 0`. -/
theorem headD_le_bound (l : List Nat) (c : Nat) (h : ∀ x ∈ l, x ≤ c) :
    l.headD 0 ≤ c := by
  cases l with
  | nil => exact Nat.zero_le c
  | cons a t => exact h a (by simp)

/-- Case analysis and range of `cocComposeImpl` on digit inputs. -/
theorem cocComposeImpl_spec (t o : Nat) (ht : t ≤ 9) (ho : o ≤ 9) :
    (t = 0 ∧ o = 0 → cocComposeImpl t o = 100) ∧
    (¬(t = 0 ∧ o = 0) → cocComposeImpl t o = t * 10 + o) ∧
    1 ≤ cocComposeImpl t o ∧ cocComposeImpl t o ≤ 100 := by
  unfold cocComposeImpl
  by_cases h : t = 0 ∧ o = 0
  · simp [h]
  · have hz : ¬(t * 10 + o = 0) := by omega
    simp only [if_neg h, if_neg hz]
    exact ⟨fun hh => absurd hh h, fun _ => trivial, by omega⟩

/-- C3: for every valid `roll_coc_dice` call the final result is 100
exactly when the selected tens digit and ones digit are both 0,
otherwise `selected_tens*10 + ones` (so tens 0 with ones in 1..9 yields
ones), and the result always lies in [1, 100]. -/
theorem roll_coc_result_composition (skill n : Int) (b : Bool) (ones : Nat)
    (tens_rolls : List Nat) (hskill : 1 ≤ skill ∧ skill ≤ 100)
    (hn : 0 ≤ n ∧ n ≤ 3) (hones : ones ≤ 9)
    (htens : ∀ x ∈ tens_rolls, x ≤ 9) :
    ∃ r, roll_coc_dice skill n b ones tens_rolls = PyResult.ok r ∧
      (r.selected_tens = 0 ∧ r.ones_digit = 0 → r.result = 100) ∧
      (¬(r.selected_tens = 0 ∧ r.ones_digit = 0) →
        r.result = r.selected_tens * 10 + r.ones_digit) ∧
      1 ≤ r.result ∧ r.result ≤ 100 := by
  have h1 : ¬(skill < 1 ∨ skill > 100) := by omega
  have h2 : ¬(n < 0 ∨ n > 3) := by omega
  have hsel : (if n = 0 then ([tens_rolls.headD 0], tens_rolls.headD 0)
      else if b then (tens_rolls, listMin tens_rolls)
      else (tens_rolls, listMax tens_rolls)).2 ≤ 9 := by
    split
    · exact headD_le_bound _ _ htens
    · split
      · exact listMin_le_bound _ _ htens
      · exact listMax_le_bound _ _ htens
  have hc := cocComposeImpl_spec _ ones hsel hones
  unfold roll_coc_dice
  rw [if_neg h1, if_neg h2]
  exact ⟨_, rfl, hc.1, hc.2.1, hc.2.2⟩

/-- Witness for C3: skill 50, two bonus dice, candidates `[3, 5, 7]`,
ones digit 2. -/
theorem roll_coc_result_composition_witness :
    ∃ r, roll_coc_dice 50 2 true 2 [3, 5, 7] = PyResult.ok r ∧
      (r.selected_tens = 0 ∧ r.ones_digit = 0 → r.result = 100) ∧
      (¬(r.selected_tens = 0 ∧ r.ones_digit = 0) →
        r.result = r.selected_tens * 10 + r.ones_digit) ∧
      1 ≤ r.result ∧ r.result ≤ 100 :=
  roll_coc_result_composition 50 2 true 2 [3, 5, 7] (by omega) (by omega)
    (by omega) (by decide)

/-- C4: the derived flags of every valid `roll_coc_dice` call:
`is_success` holds iff `result ≤ skill_value`, `is_critical` iff
`result = 1`, and `is_fumble` iff `result ≥ 96`, with the 96 threshold
independent of the (arbitrary valid) skill value. -/
theorem roll_coc_flags (skill n : Int) (b : Bool) (ones : Nat)
    (tens_rolls : List Nat) (hskill : 1 ≤ skill ∧ skill ≤ 100)
    (hn : 0 ≤ n ∧ n ≤ 3) :
    ∃ r, roll_coc_dice skill n b ones tens_rolls = PyResult.ok r ∧
      (r.is_success = true ↔ (r.result : Int) ≤ skill) ∧
      (r.is_critical = true ↔ r.result = 1) ∧
      (r.is_fumble = true ↔ 96 ≤ r.result) := by
  have h1 : ¬(skill < 1 ∨ skill > 100) := by omega
  have h2 : ¬(n < 0 ∨ n > 3) := by omega
  unfold roll_coc_dice
  rw [if_neg h1, if_neg h2]
  refine ⟨_, rfl, ?_, ?_, ?_⟩ <;> simp

/-- Witness for C4 at skill 50, no bonus dice, tens 4, ones 3. -/
theorem roll_coc_flags_witness :
    ∃ r, roll_coc_dice 50 0 true 3 [4] = PyResult.ok r ∧
      (r.is_success = true ↔ (r.result : Int) ≤ 50) ∧
      (r.is_critical = true ↔ r.result = 1) ∧
      (r.is_fumble = true ↔ 96 ≤ r.result) :=
  roll_coc_flags 50 0 true 3 [4] (by omega) (by omega)

/-- C5: with `n` bonus/penalty dice (n in 1..3) the candidate list has
`1 + n` entries and is returned unchanged, and the selected tens digit
is its minimum for a bonus and its maximum for a penalty; concretely,
candidates `[3, 5, 7]` with ones 2 give 32 for a bonus and 72 for a
penalty. -/
theorem roll_coc_bonus_penalty_selection (skill n : Int) (b : Bool)
    (ones : Nat) (tens_rolls : List Nat)
    (hskill : 1 ≤ skill ∧ skill ≤ 100) (hn : 1 ≤ n ∧ n ≤ 3)
    (hlen : tens_rolls.length = 1 + n.toNat) :
    (∃ r, roll_coc_dice skill n b ones tens_rolls = PyResult.ok r ∧
      r.bonus_penalty_rolls = tens_rolls ∧
      r.bonus_penalty_rolls.length = 1 + n.toNat ∧
      r.selected_tens ∈ tens_rolls ∧
      (b = true → ∀ x ∈ tens_rolls, r.selected_tens ≤ x) ∧
      (b = false → ∀ x ∈ tens_rolls, x ≤ r.selected_tens)) ∧
    (∃ r, roll_coc_dice 50 2 true 2 [3, 5, 7] = PyResult.ok r ∧
      r.selected_tens = 3 ∧ r.result = 32) ∧
    (∃ r, roll_coc_dice 50 2 false 2 [3, 5, 7] = PyResult.ok r ∧
      r.selected_tens = 7 ∧ r.result = 72) := by
  refine ⟨?_, ⟨_, rfl, by decide, by decide⟩, ⟨_, rfl, by decide, by decide⟩⟩
  have h1 : ¬(skill < 1 ∨ skill > 100) := by omega
  have h2 : ¬(n < 0 ∨ n > 3) := by omega
  have hn0 : ¬(n = 0) := by omega
  have hne : tens_rolls ≠ [] := by
    intro h
    rw [h] at hlen
    simp at hlen
    omega
  unfold roll_coc_dice
  rw [if_neg h1, if_neg h2]
  cases b with
  | true =>
    refine ⟨_, rfl, ?_, ?_, ?_, ?_, ?_⟩
    · show (if n = 0 then ([tens_rolls.headD 0], tens_rolls.headD 0)
        else (tens_rolls, listMin tens_rolls)).1 = tens_rolls
      rw [if_neg hn0]
    · show (if n = 0 then ([tens_rolls.headD 0], tens_rolls.headD 0)
        else (tens_rolls, listMin tens_rolls)).1.length = 1 + n.toNat
      rw [if_neg hn0]
      exact hlen
    · show (if n = 0 then ([tens_rolls.headD 0], tens_rolls.headD 0)
        else (tens_rolls, listMin tens_rolls)).2 ∈ tens_rolls
      rw [if_neg hn0]
      exact listMin_mem tens_rolls hne
    · intro _ x hx
      show (if n = 0 then ([tens_rolls.headD 0], tens_rolls.headD 0)
        else (tens_rolls, listMin tens_rolls)).2 ≤ x
      rw [if_neg hn0]
      exact listMin_le tens_rolls x hx
    · intro h
      cases h
  | false =>
    refine ⟨_, rfl, ?_, ?_, ?_, ?_, ?_⟩
    · show (if n = 0 then ([tens_rolls.headD 0], tens_rolls.headD 0)
        else (tens_rolls, listMax tens_rolls)).1 = tens_rolls
      rw [if_neg hn0]
    · show (if n = 0 then ([tens_rolls.headD 0], tens_rolls.headD 0)
        else (tens_rolls, listMax tens_rolls)).1.length = 1 + n.toNat
      rw [if_neg hn0]
      exact hlen
    · show (if n = 0 then ([tens_rolls.headD 0], tens_rolls.headD 0)
        else (tens_rolls, listMax tens_rolls)).2 ∈ tens_rolls
      rw [if_neg hn0]
      exact listMax_mem tens_rolls hne
    · intro h
      cases h
    · intro _ x hx
      show x ≤ (if n = 0 then ([tens_rolls.headD 0], tens_rolls.headD 0)
        else (tens_rolls, listMax tens_rolls)).2
      rw [if_neg hn0]
      exact le_listMax tens_rolls x hx

/-- Witness for C5: skill 50, two penalty dice, candidates `[3, 5, 7]`. -/
theorem roll_coc_bonus_penalty_selection_witness :
    (∃ r, roll_coc_dice 50 2 false 2 [3, 5, 7] = PyResult.ok r ∧
      r.bonus_penalty_rolls = [3, 5, 7] ∧
      r.bonus_penalty_rolls.length = 1 + (2 : Int).toNat ∧
      r.selected_tens ∈ [3, 5, 7] ∧
      (false = true → ∀ x ∈ [3, 5, 7], r.selected_tens ≤ x) ∧
      (false = false → ∀ x ∈ [3, 5, 7], x ≤ r.selected_tens)) ∧
    (∃ r, roll_coc_dice 50 2 true 2 [3, 5, 7] = PyResult.ok r ∧
      r.selected_tens = 3 ∧ r.result = 32) ∧
    (∃ r, roll_coc_dice 50 2 false 2 [3, 5, 7] = PyResult.ok r ∧
      r.selected_tens = 7 ∧ r.result = 72) :=
  roll_coc_bonus_penalty_selection 50 2 false 2 [3, 5, 7] (by omega)
    (by omega) (by decide)

end DiceUtils

namespace DiceUtils

/-- C7: the scan-time validation of a dice expression fails exactly when
count < 1, count > 100, faces < 2, faces > 1000, or a keep-modifier is
present with keep-count < 1 or keep-count > count; the concrete inputs
`101d20`, `1d1001`, `1d1`, `3d20kh4` (and the other bounds `0d6`,
`3d20kh0`) are rejected by `tokenize` with the stated messages. -/
theorem tokenize_scan_range_validation :
    (∀ (n f : Nat) (m : Option Modifier) (k : Option Nat),
      validateDice n f m k ≠ PyResult.ok () ↔
        (n < 1 ∨ n > 100 ∨ f < 2 ∨ f > 1000 ∨
          (∃ mo kk, m = some mo ∧ k = some kk ∧ (kk < 1 ∨ kk > n)))) ∧
    tokenize "101d20" = PyResult.error "骰子數量不能超過 100" ∧
    tokenize "1d1001" = PyResult.error "骰子面數不能超過 1000" ∧
    tokenize "1d1" = PyResult.error "骰子面數必須至少為 2" ∧
    tokenize "3d20kh4" = PyResult.error "保留數量 (4) 不能大於骰子數量 (3)" ∧
    tokenize "0d6" = PyResult.error "骰子數量必須大於 0" ∧
    tokenize "3d20kh0" = PyResult.error "保留數量必須大於 0" := by
  refine ⟨?_, by decide, by decide, by decide, by decide, by decide,
    by decide⟩
  intro n f m k
  rcases m with _ | mo <;> rcases k with _ | kk <;>
    simp [validateDice] <;> split_ifs <;> simp_all

end DiceUtils

namespace DiceUtils

/-- C9: in `format_multiple_results`, an attempt carrying exactly one
roll record is rendered with the detailed single-dice line only when the
formula contains exactly one lowercase `d` character; any other count
falls back to the generic `record → result` line.  `"1D20+5"`
tokenizes identically to `"1d20+5"`, yet formats with the generic
fallback while the lowercase spelling gets the detailed line. -/
theorem format_single_record_lowercase_gate (formula : String) (i : Nat)
    (result : Int) (d : DiceRoll) (h : formula.toList.count 'd' ≠ 1) :
    formatEntryLine formula i result [d] =
      "第" ++ toString i ++ "次：" ++ d.display ++ " → " ++ toString result ∧
    tokenize "1D20+5" = tokenize "1d20+5" ∧
    formatEntryLine "1D20+5" 1 25 [rollDiceCore 1 20 [20] none none] =
      "第1次：[20] → 25" ∧
    formatEntryLine "1d20+5" 1 25 [rollDiceCore 1 20 [20] none none] =
      "第1次：[20] + 5 = 25" := by
  refine ⟨?_, by decide, by decide, by decide⟩
  simp only [formatEntryLine, List.map_cons, List.map_nil]
  rw [if_neg (by simpa using h), if_neg (by simp),
    show ", ".intercalate [d.display] = d.display from rfl]

/-- Witness for C9: the uppercase formula `1D20+5` (zero lowercase `d`)
with a single one-die record. -/
theorem format_single_record_lowercase_gate_witness :
    formatEntryLine "1D20+5" 2 7 [rollDiceCore 1 20 [13] none none] =
      "第" ++ toString 2 ++ "次：" ++
        (rollDiceCore 1 20 [13] none none).display ++ " → " ++
        toString (7 : Int) ∧
    tokenize "1D20+5" = tokenize "1d20+5" ∧
    formatEntryLine "1D20+5" 1 25 [rollDiceCore 1 20 [20] none none] =
      "第1次：[20] → 25" ∧
    formatEntryLine "1d20+5" 1 25 [rollDiceCore 1 20 [20] none none] =
      "第1次：[20] + 5 = 25" :=
  format_single_record_lowercase_gate "1D20+5" 2 7
    (rollDiceCore 1 20 [13] none none) (by decide)

end DiceUtils

namespace DiceUtils

/-- The implementation's stable merge sort agrees with the spec-side
insertion sort, descending case. -/
theorem mergeSort_kh_eq (rolls : List Nat) :
    rolls.mergeSort (sortComparator Modifier.kh) =
      rolls.insertionSort (· ≥ ·) :=
  List.mergeSort_eq_insertionSort (· ≥ ·) rolls

/-- The implementation's stable merge sort agrees with the spec-side
insertion sort, ascending case. -/
theorem mergeSort_kl_eq (rolls : List Nat) :
    rolls.mergeSort (sortComparator Modifier.kl) =
      rolls.insertionSort (· ≤ ·) :=
  List.mergeSort_eq_insertionSort (· ≤ ·) rolls

/-- C1: with a keep-modifier, kept and dropped rolls together are a
permutation of the rolls; the total of `kh k` is the sum of the `k`
largest rolls, of `kl k` the sum of the `k` smallest; without a
modifier the total is the plain sum. -/
theorem roll_dice_keep_correct (n f k : Nat) (rolls : List Nat)
    (m : Modifier) :
    ((rollDiceCore n f rolls (some m) (some k)).kept_rolls.getD [] ++
      (rollDiceCore n f rolls (some m) (some k)).dropped_rolls.getD
        []).Perm rolls ∧
    (rollDiceCore n f rolls (some Modifier.kh) (some k)).total =
      sumKLargest k rolls ∧
    (rollDiceCore n f rolls (some Modifier.kl) (some k)).total =
      sumKSmallest k rolls ∧
    (rollDiceCore n f rolls none none).total = rolls.sum := by
  refine ⟨?_, ?_, ?_, rfl⟩
  · simp only [rollDiceCore, Option.getD_some]
    rw [List.take_append_drop]
    exact List.mergeSort_perm rolls _
  · simp only [rollDiceCore]
    rw [mergeSort_kh_eq]
    rfl
  · simp only [rollDiceCore]
    rw [mergeSort_kl_eq]
    rfl

unseal List.merge List.mergeSort in
/-- C2 counterexample: rolling [3, 5] with `kh2` produces
`kept_rolls = [5, 3]`, which is in descending sorted order, not the
original roll order (it is not even a subsequence of `rolls`), while
`rolls` itself stays `[3, 5]`. -/
theorem kept_rolls_not_roll_order_counterexample :
    (rollDiceCore 2 6 [3, 5] (some Modifier.kh) (some 2)).kept_rolls =
      some [5, 3] ∧
    ¬ List.Sublist [5, 3] [3, 5] ∧
    (rollDiceCore 2 6 [3, 5] (some Modifier.kh) (some 2)).rolls =
      [3, 5] := by
  decide

/-- C2 (as amended): `kept_rolls` and `dropped_rolls` are the first `k`
and remaining entries of the value-sorted rolls — descending for `kh`,
ascending for `kl` — so they are ordered by sorted value (every kept
value bounds every dropped value), not by original roll order; the
`rolls` field itself preserves the original order, and kept plus
dropped is a permutation of it. -/
theorem kept_dropped_sorted_order (n f k : Nat) (rolls : List Nat) :
    (∀ m, (rollDiceCore n f rolls (some m) (some k)).rolls = rolls) ∧
    ((rollDiceCore n f rolls (some Modifier.kh) (some k)).kept_rolls.getD
      []).Sorted (· ≥ ·) ∧
    ((rollDiceCore n f rolls (some Modifier.kh) (some k)).dropped_rolls.getD
      []).Sorted (· ≥ ·) ∧
    (∀ x ∈ (rollDiceCore n f rolls (some Modifier.kh) (some k)).kept_rolls.getD [],
      ∀ y ∈ (rollDiceCore n f rolls (some Modifier.kh) (some k)).dropped_rolls.getD [],
        y ≤ x) ∧
    ((rollDiceCore n f rolls (some Modifier.kl) (some k)).kept_rolls.getD
      []).Sorted (· ≤ ·) ∧
    ((rollDiceCore n f rolls (some Modifier.kl) (some k)).dropped_rolls.getD
      []).Sorted (· ≤ ·) ∧
    (∀ x ∈ (rollDiceCore n f rolls (some Modifier.kl) (some k)).kept_rolls.getD [],
      ∀ y ∈ (rollDiceCore n f rolls (some Modifier.kl) (some k)).dropped_rolls.getD [],
        x ≤ y) := by
  have hkh : (rolls.mergeSort (sortComparator Modifier.kh)).Sorted (· ≥ ·) := by
    rw [mergeSort_kh_eq]
    exact List.sorted_insertionSort (· ≥ ·) rolls
  have hkl : (rolls.mergeSort (sortComparator Modifier.kl)).Sorted (· ≤ ·) := by
    rw [mergeSort_kl_eq]
    exact List.sorted_insertionSort (· ≤ ·) rolls
  have hkh2 : ((rolls.mergeSort (sortComparator Modifier.kh)).take k ++
      (rolls.mergeSort (sortComparator Modifier.kh)).drop k).Pairwise (· ≥ ·) := by
    rw [List.take_append_drop]
    exact hkh
  have hkl2 : ((rolls.mergeSort (sortComparator Modifier.kl)).take k ++
      (rolls.mergeSort (sortComparator Modifier.kl)).drop k).Pairwise (· ≤ ·) := by
    rw [List.take_append_drop]
    exact hkl
  refine ⟨fun m => rfl, ?_, ?_, ?_, ?_, ?_, ?_⟩ <;>
    simp only [rollDiceCore, Option.getD_some]
  · exact hkh.sublist (List.take_sublist k _)
  · exact hkh.sublist (List.drop_sublist k _)
  · intro x hx y hy
    exact (List.pairwise_append.mp hkh2).2.2 x hx y hy
  · exact hkl.sublist (List.take_sublist k _)
  · exact hkl.sublist (List.drop_sublist k _)
  · intro x hx y hy
    exact (List.pairwise_append.mp hkl2).2.2 x hx y hy

unseal List.merge List.mergeSort in
/-- C8 counterexample: the record for rolls [3, 5] with `kh2` carries a
keep-modifier, yet its display is the plain "[3, 5]" rolls form, not
the claimed "[kept](~~dropped~~)" split form (the dropped list is
empty, and Python's truthiness test skips the split rendering). -/
theorem dice_display_empty_dropped_counterexample :
    (rollDiceCore 2 6 [3, 5] (some Modifier.kh) (some 2)).modifier =
      some Modifier.kh ∧
    (rollDiceCore 2 6 [3, 5] (some Modifier.kh) (some 2)).kept_rolls =
      some [5, 3] ∧
    (rollDiceCore 2 6 [3, 5] (some Modifier.kh) (some 2)).dropped_rolls =
      some [] ∧
    (rollDiceCore 2 6 [3, 5] (some Modifier.kh) (some 2)).display =
      "[3, 5]" ∧
    "[3, 5]" ≠ "[" ++ joinComma [5, 3] ++ "](~~" ++ joinComma [] ++
      "~~)" := by
  decide

/-- C8 (as amended): a keep-modifier record renders as
"[kept](~~dropped~~)" (kept and dropped comma-joined) whenever the
dropped list is non-empty, i.e. when keep-count < dice count; when
keep-count equals the dice count the dropped list is empty and the
record falls back to the plain rolls display (the display of the same
rolls without a modifier). -/
theorem dice_display_keep_modifier (n f k : Nat) (rolls : List Nat)
    (m : Modifier) (hlen : rolls.length = n) (hk1 : 1 ≤ k) :
    (k < n →
      (rollDiceCore n f rolls (some m) (some k)).display =
        "[" ++ joinComma
            ((rollDiceCore n f rolls (some m) (some k)).kept_rolls.getD [])
          ++ "](~~" ++ joinComma
            ((rollDiceCore n f rolls (some m) (some k)).dropped_rolls.getD [])
          ++ "~~)") ∧
    (k = n →
      (rollDiceCore n f rolls (some m) (some k)).dropped_rolls = some [] ∧
      (rollDiceCore n f rolls (some m) (some k)).display =
        (rollDiceCore n f rolls none none).display) := by
  have hslen : (rolls.mergeSort (sortComparator m)).length = n := by
    rw [List.length_mergeSort]
    exact hlen
  constructor
  · intro hkn
    have hkept : ((rolls.mergeSort (sortComparator m)).take k).isEmpty = false := by
      rw [List.isEmpty_eq_false]
      apply List.ne_nil_of_length_pos
      rw [List.length_take]
      omega
    have hdrop : ((rolls.mergeSort (sortComparator m)).drop k).isEmpty = false := by
      rw [List.isEmpty_eq_false]
      apply List.ne_nil_of_length_pos
      rw [List.length_drop]
      omega
    simp only [rollDiceCore, DiceRoll.display, truthyList, Option.getD_some,
      hkept, hdrop, Bool.not_false, Bool.and_self, if_pos]
  · intro hkn
    have hdropnil : (rolls.mergeSort (sortComparator m)).drop k = [] := by
      apply List.eq_nil_of_length_eq_zero
      rw [List.length_drop]
      omega
    constructor
    · simp only [rollDiceCore, hdropnil]
    · simp [rollDiceCore, DiceRoll.display, truthyList, hdropnil]

unseal List.merge List.mergeSort in
/-- Witness for C8 (amended): three d6 rolls [1, 3, 2] kept-highest-2
give the split display "[3, 2](~~1~~)"; keeping all three gives the
plain "[1, 3, 2]". -/
theorem dice_display_keep_modifier_witness :
    (2 < 3 →
      (rollDiceCore 3 6 [1, 3, 2] (some Modifier.kh) (some 2)).display =
        "[" ++ joinComma
            ((rollDiceCore 3 6 [1, 3, 2] (some Modifier.kh) (some 2)).kept_rolls.getD [])
          ++ "](~~" ++ joinComma
            ((rollDiceCore 3 6 [1, 3, 2] (some Modifier.kh) (some 2)).dropped_rolls.getD [])
          ++ "~~)") ∧
    (2 = 3 →
      (rollDiceCore 3 6 [1, 3, 2] (some Modifier.kh) (some 2)).dropped_rolls = some [] ∧
      (rollDiceCore 3 6 [1, 3, 2] (some Modifier.kh) (some 2)).display =
        (rollDiceCore 3 6 [1, 3, 2] none none).display) :=
  dice_display_keep_modifier 3 6 2 [1, 3, 2] Modifier.kh (by decide)
    (by decide)

end DiceUtils
